import Mathlib

/-!
Verification of the UVD 6.0 hardware driver
(drivers/gpu/drm/amd/amdgpu/uvd_v6_0.c).

The driver is embedded shallowly as a register-file state machine:

* `Reg` enumerates the memory-mapped device registers the driver touches.
* `Dev` holds the software-visible register file, an event trace of the
  register writes and busy-wait delays the driver performs, and the command
  ring descriptor.
* Hardware-driven status reads (the VCPU `UVD_STATUS` boot-poll reads and the
  `SRBM_STATUS` busy-bit reads) are supplied by oracles, since their values
  are produced by the asynchronous hardware rather than by earlier writes.
* External fallible collaborators (ring lock, generic ring test, memory
  release) are modelled by their integer result codes.

Machine integers are modelled as `Nat`; the C `~mask` complement on 32-bit
values is `compl32`, and truncation to 32/20/8-bit fields is explicit.
-/

/-- Memory-mapped device registers referenced by uvd_v6_0.c. -/
inductive Reg where
  | UVD_POWER_STATUS
  | UVD_LMI_VCPU_CACHE_64BIT_BAR_LOW
  | UVD_LMI_VCPU_CACHE_64BIT_BAR_HIGH
  | UVD_VCPU_CACHE_OFFSET0
  | UVD_VCPU_CACHE_SIZE0
  | UVD_VCPU_CACHE_OFFSET1
  | UVD_VCPU_CACHE_SIZE1
  | UVD_VCPU_CACHE_OFFSET2
  | UVD_VCPU_CACHE_SIZE2
  | UVD_CGC_GATE
  | UVD_MASTINT_EN
  | UVD_LMI_CTRL2
  | UVD_SOFT_RESET
  | SRBM_SOFT_RESET
  | UVD_LMI_CTRL
  | UVD_LMI_SWAP_CNTL
  | UVD_MP_SWAP_CNTL
  | UVD_MPC_SET_MUXA0
  | UVD_MPC_SET_MUXA1
  | UVD_MPC_SET_MUXB0
  | UVD_MPC_SET_MUXB1
  | UVD_MPC_SET_ALU
  | UVD_MPC_SET_MUX
  | UVD_VCPU_CNTL
  | UVD_STATUS
  | UVD_RBC_RB_CNTL
  | UVD_RBC_RB_WPTR_CNTL
  | UVD_RBC_RB_RPTR_ADDR
  | UVD_LMI_RBC_RB_64BIT_BAR_LOW
  | UVD_LMI_RBC_RB_64BIT_BAR_HIGH
  | UVD_RBC_RB_RPTR
  | UVD_RBC_RB_WPTR
  | UVD_CONTEXT_ID
  | UVD_GPCOM_VCPU_DATA0
  | UVD_GPCOM_VCPU_DATA1
  | UVD_GPCOM_VCPU_CMD
  | UVD_SEMA_ADDR_LOW
  | UVD_SEMA_ADDR_HIGH
  | UVD_SEMA_CMD
  | UVD_SEMA_WAIT_FAULT_TIMEOUT_CNTL
  | UVD_SEMA_WAIT_INCOMPLETE_TIMEOUT_CNTL
  | UVD_SEMA_SIGNAL_INCOMPLETE_TIMEOUT_CNTL
  | UVD_SEMA_TIMEOUT_STATUS
  | UVD_SEMA_CNTL
  | SRBM_STATUS
deriving DecidableEq

/-- Observable events of a driver execution: register writes (`WREG32` /
`WREG32_P` after read-modify-write), hardware status reads, and the blocking
millisecond delays (`mdelay`). -/
inductive Ev where
  | wr (r : Reg) (v : Nat)
  | rd (r : Reg) (v : Nat)
  | delay (ms : Nat)
deriving DecidableEq

/-- One 32-bit ring word. The UVD wire format is address-tagged: the stream
alternates register tags (`PACKET0`) and payload values. -/
inductive RW where
  | tag (r : Reg)
  | val (v : Nat)
deriving DecidableEq

/-- The command ring descriptor (struct amdgpu_ring fields used here). -/
structure AmdgpuRing where
  ring_size : Nat
  gpu_addr : Nat
  wptr : Nat
  ready : Bool
  buf : List RW
deriving DecidableEq

/-- Device state: register file, event trace, ring, and the firmware blob
descriptor (`adev->uvd.gpu_addr`, `adev->uvd.fw->size`). -/
structure Dev where
  regs : Reg → Nat
  trace : List Ev
  ring : AmdgpuRing
  uvd_gpu_addr : Nat
  fw_size : Nat

/-- 32-bit complement: the C expression `~m` evaluated on a 32-bit value. -/
def compl32 (m : Nat) : Nat := 0xFFFFFFFF ^^^ m

/-- lower_32_bits(x) from the kernel: the low 32-bit half. -/
def lower_32_bits (x : Nat) : Nat := x &&& 0xFFFFFFFF

/-- upper_32_bits(x) from the kernel: the high 32-bit half. -/
def upper_32_bits (x : Nat) : Nat := x >>> 32

/-- Modelled from the spec: GPU page granularity (scenario in the spec fixes
it at 4096; the constant lives in an external header, not in this repo). -/
def AMDGPU_GPU_PAGE_SIZE : Nat := 4096

/-- Modelled from the spec: round-up to the GPU page granularity
(round-up(x, 4096) in the spec scenario; external macro AMDGPU_GPU_PAGE_ALIGN). -/
def AMDGPU_GPU_PAGE_ALIGN (x : Nat) : Nat :=
  ((x + (AMDGPU_GPU_PAGE_SIZE - 1)) / AMDGPU_GPU_PAGE_SIZE) * AMDGPU_GPU_PAGE_SIZE

/-- Modelled from the spec: the fixed firmware base offset of the first
memory-controller region. The value lives in an external header; the spec
requires the region starts to be aligned to the page granularity, so the
modelled constant is taken page-aligned. -/
def AMDGPU_UVD_FIRMWARE_OFFSET : Nat := 4096

/-- Modelled from the spec: the fixed execution-stack region size (external
header constant; the spec requires page-aligned region starts, so the size is
taken as a positive multiple of the page granularity). -/
def AMDGPU_UVD_STACK_SIZE : Nat := 200 * 1024

/-- Modelled from the spec: the fixed heap region size (external header
constant, a positive multiple of the page granularity). -/
def AMDGPU_UVD_HEAP_SIZE : Nat := 256 * 1024

/-- Modelled from the spec: the VCPU subblock bit of UVD_SOFT_RESET (external
register header; a fixed single-bit mask). -/
def UVD_SOFT_RESET__VCPU_SOFT_RESET_MASK : Nat := 1 <<< 3

/-- Modelled from the spec: the remaining reset-capable subblock bits of
UVD_SOFT_RESET (LMI, LBSI, RBC, CSM, CXW, TAP, LMI_UMC; distinct single-bit
masks from the external register header). -/
def UVD_SOFT_RESET__LMI_SOFT_RESET_MASK : Nat := 1 <<< 2

def UVD_SOFT_RESET__LBSI_SOFT_RESET_MASK : Nat := 1 <<< 1

def UVD_SOFT_RESET__RBC_SOFT_RESET_MASK : Nat := 1 <<< 0

def UVD_SOFT_RESET__CSM_SOFT_RESET_MASK : Nat := 1 <<< 5

def UVD_SOFT_RESET__CXW_SOFT_RESET_MASK : Nat := 1 <<< 6

def UVD_SOFT_RESET__TAP_SOFT_RESET_MASK : Nat := 1 <<< 7

def UVD_SOFT_RESET__LMI_UMC_SOFT_RESET_MASK : Nat := 1 <<< 13

/-- Modelled from the spec: the system-level (SRBM) soft-reset bit of the UVD
engine (external register header; a fixed single-bit mask). -/
def SRBM_SOFT_RESET__SOFT_RESET_UVD_MASK : Nat := 1 <<< 18

/-- Modelled from the spec: the shared engine-busy status bit of SRBM_STATUS
(external register header; a fixed single-bit mask). -/
def SRBM_STATUS__UVD_BUSY_MASK : Nat := 1 <<< 19

/-- Modelled from the spec: the RB_NO_FETCH field mask of UVD_RBC_RB_CNTL
(external register header; a fixed single-bit mask). -/
def UVD_RBC_RB_CNTL__RB_NO_FETCH_MASK : Nat := 1 <<< 16

/-- Modelled from the spec: the ring-control boot value composed by the
REG_SET_FIELD chain in start(): buffer size as log2, block size 1, no-fetch
set, write-pointer polling off, no-update set, read-pointer writes enabled
(field placement from the external register header). -/
def rbCntlBootValue (bufsz : Nat) : Nat :=
  bufsz ||| (1 <<< 8) ||| UVD_RBC_RB_CNTL__RB_NO_FETCH_MASK ||| (1 <<< 24) ||| (1 <<< 28)

/-- Modelled from the spec: order_base_2 (external helper), the ceiling
base-2 logarithm used for the ring-buffer size field. -/
def order_base_2 (n : Nat) : Nat := if n ≤ 1 then 0 else Nat.log2 (n - 1) + 1

/-- -ETIMEDOUT, the distinct timeout error code. -/
def ETIMEDOUT : Int := 110

/-- WREG32: write a device register, recording the write in the trace. -/
def wreg (d : Dev) (r : Reg) (v : Nat) : Dev :=
  { d with
    regs := fun x => if x = r then v else d.regs x
    trace := d.trace ++ [Ev.wr r v] }

/-- WREG32_P(reg, v, mask): read-modify-write, keeping the bits selected by
`mask` and or-ing in `v` (the C callers pass `mask = ~bits`). -/
def wregp (d : Dev) (r : Reg) (v mask : Nat) : Dev :=
  wreg d r ((d.regs r &&& mask) ||| v)

/-- mdelay: blocking millisecond delay, recorded in the trace. -/
def mdelay (d : Dev) (ms : Nat) : Dev :=
  { d with trace := d.trace ++ [Ev.delay ms] }

/-- amdgpu_ring_write: append one 32-bit word to the ring. -/
def amdgpu_ring_write (rg : AmdgpuRing) (w : RW) : AmdgpuRing :=
  { rg with buf := rg.buf ++ [w] }

/-- Modelled from the spec: PACKET0(reg, 0), the tag word carrying the target
register address (the numeric encoding is an external macro; the spec defines
the wire format as (tagged-register-address, value) pairs). -/
def PACKET0 (r : Reg) : RW := RW.tag r

/-- amdgpu_ring_write lifted to the device state. -/
def ring_write_dev (d : Dev) (w : RW) : Dev :=
  { d with ring := amdgpu_ring_write d.ring w }

/-- Region-0 (firmware cache) offset programmed by uvd_v6_0_mc_resume. -/
def mc_offset0 : Nat := AMDGPU_UVD_FIRMWARE_OFFSET

/-- Region-0 (firmware cache) size: the firmware size plus 4, page-aligned,
then truncated modulo 2^32 by the assignment to the uint32_t local `size` of
uvd_v6_0_mc_resume (fw->size itself is a 64-bit size_t). -/
def mc_size0 (fw : Nat) : Nat := AMDGPU_GPU_PAGE_ALIGN (fw + 4) % 2 ^ 32

/-- Region-1 (stack) offset: region 0 offset plus region 0 size. -/
def mc_offset1 (fw : Nat) : Nat := mc_offset0 + mc_size0 fw

/-- Region-2 (heap) offset: region 1 offset plus the stack size. -/
def mc_offset2 (fw : Nat) : Nat := mc_offset1 fw + AMDGPU_UVD_STACK_SIZE

/-- uvd_v6_0_mc_resume: program the memory-controller cache/stack/heap
region offsets and sizes (offsets are written in 8-byte units, hence >>> 3). -/
def uvd_v6_0_mc_resume (d0 : Dev) : Dev :=
  let d := wreg d0 .UVD_LMI_VCPU_CACHE_64BIT_BAR_LOW (lower_32_bits d0.uvd_gpu_addr)
  let d := wreg d .UVD_LMI_VCPU_CACHE_64BIT_BAR_HIGH (upper_32_bits d0.uvd_gpu_addr)
  let d := wreg d .UVD_VCPU_CACHE_OFFSET0 (mc_offset0 >>> 3)
  let d := wreg d .UVD_VCPU_CACHE_SIZE0 (mc_size0 d0.fw_size)
  let d := wreg d .UVD_VCPU_CACHE_OFFSET1 (mc_offset1 d0.fw_size >>> 3)
  let d := wreg d .UVD_VCPU_CACHE_SIZE1 AMDGPU_UVD_STACK_SIZE
  let d := wreg d .UVD_VCPU_CACHE_OFFSET2 (mc_offset2 d0.fw_size >>> 3)
  wreg d .UVD_VCPU_CACHE_SIZE2 AMDGPU_UVD_HEAP_SIZE

/-- uvd_v6_0_stop: force RBC idle, stall the UMC/register bus (1 ms), put the
VCPU into reset (5 ms), disable the VCPU clock, unstall the bus. -/
def uvd_v6_0_stop (d : Dev) : Dev :=
  let d := wreg d .UVD_RBC_RB_CNTL 0x11010101
  let d := wregp d .UVD_LMI_CTRL2 (1 <<< 8) (compl32 (1 <<< 8))
  let d := mdelay d 1
  let d := wreg d .UVD_SOFT_RESET UVD_SOFT_RESET__VCPU_SOFT_RESET_MASK
  let d := mdelay d 5
  let d := wreg d .UVD_VCPU_CNTL 0
  wregp d .UVD_LMI_CTRL2 0 (compl32 (1 <<< 8))

/-- The inner boot poll of uvd_v6_0_start: up to `fuel` reads of UVD_STATUS
(values supplied by the oracle `st` at outer attempt `i`, inner index `j`),
breaking out as soon as bit 1 (value 2, the booted bit) is set, with a 10 ms
delay after every unsuccessful read.  Returns the last status value read, the
number of reads performed, and the events.  `status` threads the C local
variable so that an exhausted loop reports its final read. -/
def innerPoll (st : Nat → Nat → Nat) (i : Nat) : Nat → Nat → Nat → Nat × Nat × List Ev
  | _j, status, 0 => (status, 0, [])
  | j, _status, fuel + 1 =>
    let s := st i j
    if s &&& 2 ≠ 0 then (s, 1, [Ev.rd .UVD_STATUS s])
    else
      let rest := innerPoll st i (j + 1) s fuel
      (rest.1, rest.2.1 + 1, Ev.rd .UVD_STATUS s :: Ev.delay 10 :: rest.2.2)

/-- The VCPU reset-and-re-deassert pulse issued after a failed boot attempt:
assert the VCPU soft-reset bit (10 ms), deassert it again (10 ms). -/
def vcpuResetPulse (d : Dev) : Dev :=
  let d := wregp d .UVD_SOFT_RESET UVD_SOFT_RESET__VCPU_SOFT_RESET_MASK
    (compl32 UVD_SOFT_RESET__VCPU_SOFT_RESET_MASK)
  let d := mdelay d 10
  let d := wregp d .UVD_SOFT_RESET 0 (compl32 UVD_SOFT_RESET__VCPU_SOFT_RESET_MASK)
  mdelay d 10

/-- Result of the outer boot poll: the C result code `r`, the number of
reset-and-retry pulses issued, the list of inner-poll read counts (one entry
per outer attempt entered), and the device state. -/
structure PollSt where
  r : Int
  resets : Nat
  polls : List Nat
  dev : Dev

/-- The outer boot-poll loop of uvd_v6_0_start (`for (i = 0; i < 10; ++i)`):
each attempt runs the 100-read inner poll; on success the loop breaks with
r = 0; on failure the VCPU is pulsed through reset and the loop retries,
leaving r = -1 after the final attempt. -/
def outerPoll (st : Nat → Nat → Nat) : Nat → Nat → Dev → PollSt
  | _i, 0, d => ⟨-1, 0, [], d⟩
  | i, fuel + 1, d =>
    let inner := innerPoll st i 0 0 100
    let d := { d with trace := d.trace ++ inner.2.2 }
    if inner.1 &&& 2 ≠ 0 then ⟨0, 0, [inner.2.1], d⟩
    else
      let d := vcpuResetPulse d
      let ps := outerPoll st (i + 1) fuel d
      ⟨ps.r, ps.resets + 1, inner.2.1 :: ps.polls, ps.dev⟩

/-- The register-write sequence of uvd_v6_0_start up to and including the
deassertion of UVD_SOFT_RESET that boots the VCPU (steps before the boot
poll, in source order). -/
def startPre (d0 : Dev) : Dev :=
  let d := wregp d0 .UVD_POWER_STATUS 0 (compl32 (1 <<< 2))
  let d := uvd_v6_0_mc_resume d
  let d := wreg d .UVD_CGC_GATE 0
  let d := wregp d .UVD_MASTINT_EN 0 (compl32 (1 <<< 1))
  let d := wregp d .UVD_LMI_CTRL2 (1 <<< 8) (compl32 (1 <<< 8))
  let d := mdelay d 1
  let d := wreg d .UVD_SOFT_RESET
    (UVD_SOFT_RESET__LMI_SOFT_RESET_MASK |||
     UVD_SOFT_RESET__VCPU_SOFT_RESET_MASK ||| UVD_SOFT_RESET__LBSI_SOFT_RESET_MASK |||
     UVD_SOFT_RESET__RBC_SOFT_RESET_MASK ||| UVD_SOFT_RESET__CSM_SOFT_RESET_MASK |||
     UVD_SOFT_RESET__CXW_SOFT_RESET_MASK ||| UVD_SOFT_RESET__TAP_SOFT_RESET_MASK |||
     UVD_SOFT_RESET__LMI_UMC_SOFT_RESET_MASK)
  let d := mdelay d 5
  let d := wregp d .SRBM_SOFT_RESET 0 (compl32 SRBM_SOFT_RESET__SOFT_RESET_UVD_MASK)
  let d := mdelay d 5
  let d := wreg d .UVD_LMI_CTRL
    (0x40 ||| (1 <<< 8) ||| (1 <<< 13) ||| (1 <<< 21) ||| (1 <<< 9) ||| (1 <<< 20))
  let d := wreg d .UVD_LMI_SWAP_CNTL 0
  let d := wreg d .UVD_MP_SWAP_CNTL 0
  let d := wreg d .UVD_MPC_SET_MUXA0 0x40c2040
  let d := wreg d .UVD_MPC_SET_MUXA1 0
  let d := wreg d .UVD_MPC_SET_MUXB0 0x40c2040
  let d := wreg d .UVD_MPC_SET_MUXB1 0
  let d := wreg d .UVD_MPC_SET_ALU 0
  let d := wreg d .UVD_MPC_SET_MUX 0x88
  let d := wreg d .UVD_SOFT_RESET UVD_SOFT_RESET__VCPU_SOFT_RESET_MASK
  let d := mdelay d 5
  let d := wreg d .UVD_VCPU_CNTL (1 <<< 9)
  let d := wregp d .UVD_LMI_CTRL2 0 (compl32 (1 <<< 8))
  let d := wreg d .UVD_SOFT_RESET 0
  mdelay d 10

/-- The register-write sequence of uvd_v6_0_start after a successful boot
poll: enable the master interrupt, clear the status bit, program the ring
control/base/pointers, and finally clear the no-fetch bit. -/
def startPost (d0 : Dev) : Dev :=
  let d := wregp d0 .UVD_MASTINT_EN (3 <<< 1) (compl32 (3 <<< 1))
  let d := wregp d .UVD_STATUS 0 (compl32 (2 <<< 1))
  let rb_bufsz := order_base_2 d.ring.ring_size
  let d := wreg d .UVD_RBC_RB_CNTL (rbCntlBootValue rb_bufsz)
  let d := wreg d .UVD_RBC_RB_WPTR_CNTL 0
  let d := wreg d .UVD_RBC_RB_RPTR_ADDR (upper_32_bits d.ring.gpu_addr >>> 2)
  let d := wreg d .UVD_LMI_RBC_RB_64BIT_BAR_LOW (lower_32_bits d.ring.gpu_addr)
  let d := wreg d .UVD_LMI_RBC_RB_64BIT_BAR_HIGH (upper_32_bits d.ring.gpu_addr)
  let d := wreg d .UVD_RBC_RB_RPTR 0
  let wp := d.regs .UVD_RBC_RB_RPTR
  let d := { d with ring := { d.ring with wptr := wp } }
  let d := wreg d .UVD_RBC_RB_WPTR wp
  wregp d .UVD_RBC_RB_CNTL 0 (compl32 UVD_RBC_RB_CNTL__RB_NO_FETCH_MASK)

/-- uvd_v6_0_start: the full bring-up sequence.  `st` is the oracle for the
hardware-driven UVD_STATUS reads of the boot poll (attempt index, poll
index).  Returns the C result code and the final device state. -/
def uvd_v6_0_start (st : Nat → Nat → Nat) (d0 : Dev) : Int × Dev :=
  let ps := outerPoll st 0 10 (startPre d0)
  if ps.r ≠ 0 then (ps.r, ps.dev)
  else (0, startPost ps.dev)

/-- uvd_v6_0_soft_reset: stop, assert the SRBM soft-reset bit for the engine
(5 ms), then start; the bit is deasserted again inside start. -/
def uvd_v6_0_soft_reset (st : Nat → Nat → Nat) (d : Dev) : Int × Dev :=
  let d := uvd_v6_0_stop d
  let d := wregp d .SRBM_SOFT_RESET SRBM_SOFT_RESET__SOFT_RESET_UVD_MASK
    (compl32 SRBM_SOFT_RESET__SOFT_RESET_UVD_MASK)
  let d := mdelay d 5
  uvd_v6_0_start st d

/-- Spec-side composition for the soft-reset claim, written from the spec
sentence: equivalent to stop(), then pulse the system-level soft-reset bit
for the engine (5 ms), then start(). -/
def pulseEngineSystemReset (d : Dev) : Dev :=
  mdelay (wregp d .SRBM_SOFT_RESET SRBM_SOFT_RESET__SOFT_RESET_UVD_MASK
    (compl32 SRBM_SOFT_RESET__SOFT_RESET_UVD_MASK)) 5

/-- Spec-side soft reset: the composition stop, then pulse, then start. -/
def stopThenPulseThenStart (st : Nat → Nat → Nat) (d : Dev) : Int × Dev :=
  uvd_v6_0_start st (pulseEngineSystemReset (uvd_v6_0_stop d))

/-- Set the ring-ready flag (`ring->ready = b`). -/
def setReady (d : Dev) (b : Bool) : Dev :=
  { d with ring := { d.ring with ready := b } }

/-- uvd_v6_0_hw_init: start the block, mark the ring ready, run the generic
ring test, then program the semaphore timeout thresholds over the ring.
`testRes` is the result of the external generic ring test
(amdgpu_ring_test_ring) and `lockRes` the result of the external ring-lock
acquisition (amdgpu_ring_lock) for the timeout programming; both are external
collaborators modelled by their result codes. -/
def uvd_v6_0_hw_init (st : Nat → Nat → Nat) (testRes lockRes : Int) (d0 : Dev) :
    Int × Dev :=
  let out := uvd_v6_0_start st d0
  if out.1 ≠ 0 then (out.1, out.2)
  else
    let d := setReady out.2 true
    if testRes ≠ 0 then (testRes, setReady d false)
    else if lockRes ≠ 0 then (lockRes, d)
    else
      let d := ring_write_dev d (PACKET0 .UVD_SEMA_WAIT_FAULT_TIMEOUT_CNTL)
      let d := ring_write_dev d (RW.val 0xFFFFF)
      let d := ring_write_dev d (PACKET0 .UVD_SEMA_WAIT_INCOMPLETE_TIMEOUT_CNTL)
      let d := ring_write_dev d (RW.val 0xFFFFF)
      let d := ring_write_dev d (PACKET0 .UVD_SEMA_SIGNAL_INCOMPLETE_TIMEOUT_CNTL)
      let d := ring_write_dev d (RW.val 0xFFFFF)
      let d := ring_write_dev d (PACKET0 .UVD_SEMA_TIMEOUT_STATUS)
      let d := ring_write_dev d (RW.val 0x8)
      let d := ring_write_dev d (PACKET0 .UVD_SEMA_CNTL)
      let d := ring_write_dev d (RW.val 3)
      (0, d)

/-- uvd_v6_0_hw_fini: stop the block and mark the ring not ready. -/
def uvd_v6_0_hw_fini (d : Dev) : Int × Dev :=
  (0, setReady (uvd_v6_0_stop d) false)

/-- uvd_v6_0_suspend: on non-APU parts release the UVD memory resources
first (external collaborator amdgpu_uvd_suspend, modelled by its result code
`memRes`), propagating a failure immediately; then hardware_fini. -/
def uvd_v6_0_suspend (isAPU : Bool) (memRes : Int) (d : Dev) : Int × Dev :=
  if ¬ isAPU then
    if memRes ≠ 0 then (memRes, d)
    else uvd_v6_0_hw_fini d
  else uvd_v6_0_hw_fini d

/-- uvd_v6_0_set_interrupt_state: the interrupt-masking hook; the body is an
unimplemented placeholder (a TODO comment) that returns 0. -/
def uvd_v6_0_set_interrupt_state (d : Dev) (_source _type _state : Nat) : Int × Dev :=
  (0, d)

/-- uvd_v6_0_is_idle as a function of the SRBM_STATUS value read. -/
def uvd_v6_0_is_idle (srbmStatus : Nat) : Bool :=
  srbmStatus &&& SRBM_STATUS__UVD_BUSY_MASK == 0

/-- The poll loop of uvd_v6_0_wait_for_idle; `read` is the oracle giving the
SRBM_STATUS value of the i-th read.  Returns the result code and the number
of reads performed. -/
def wfiLoop (read : Nat → Nat) : Nat → Nat → Int × Nat
  | _i, 0 => (-ETIMEDOUT, 0)
  | i, fuel + 1 =>
    if read i &&& SRBM_STATUS__UVD_BUSY_MASK = 0 then (0, 1)
    else
      let rest := wfiLoop read (i + 1) fuel
      (rest.1, rest.2 + 1)

/-- uvd_v6_0_wait_for_idle: poll the busy bit up to `usec_timeout` times
(adev->usec_timeout); 0 on the first idle read, -ETIMEDOUT otherwise. -/
def uvd_v6_0_wait_for_idle (read : Nat → Nat) (usec_timeout : Nat) : Int × Nat :=
  wfiLoop read 0 usec_timeout

/-- uvd_v6_0_ring_emit_fence: the fence-and-trap packet.  addr and seq are
64-bit; each ring word is 32-bit, so payloads are truncated accordingly. -/
def uvd_v6_0_ring_emit_fence (rg : AmdgpuRing) (addr seq : Nat) : AmdgpuRing :=
  let rg := amdgpu_ring_write rg (PACKET0 .UVD_CONTEXT_ID)
  let rg := amdgpu_ring_write rg (RW.val (seq &&& 0xFFFFFFFF))
  let rg := amdgpu_ring_write rg (PACKET0 .UVD_GPCOM_VCPU_DATA0)
  let rg := amdgpu_ring_write rg (RW.val (addr &&& 0xFFFFFFFF))
  let rg := amdgpu_ring_write rg (PACKET0 .UVD_GPCOM_VCPU_DATA1)
  let rg := amdgpu_ring_write rg (RW.val (upper_32_bits addr &&& 0xFF))
  let rg := amdgpu_ring_write rg (PACKET0 .UVD_GPCOM_VCPU_CMD)
  let rg := amdgpu_ring_write rg (RW.val 0)
  let rg := amdgpu_ring_write rg (PACKET0 .UVD_GPCOM_VCPU_DATA0)
  let rg := amdgpu_ring_write rg (RW.val 0)
  let rg := amdgpu_ring_write rg (PACKET0 .UVD_GPCOM_VCPU_DATA1)
  let rg := amdgpu_ring_write rg (RW.val 0)
  let rg := amdgpu_ring_write rg (PACKET0 .UVD_GPCOM_VCPU_CMD)
  amdgpu_ring_write rg (RW.val 2)

/-- uvd_v6_0_ring_emit_semaphore: the semaphore wait/signal packet; returns
true like the C function. -/
def uvd_v6_0_ring_emit_semaphore (rg : AmdgpuRing) (addr : Nat) (emit_wait : Bool) :
    Bool × AmdgpuRing :=
  let rg := amdgpu_ring_write rg (PACKET0 .UVD_SEMA_ADDR_LOW)
  let rg := amdgpu_ring_write rg (RW.val ((addr >>> 3) &&& 0x000FFFFF))
  let rg := amdgpu_ring_write rg (PACKET0 .UVD_SEMA_ADDR_HIGH)
  let rg := amdgpu_ring_write rg (RW.val ((addr >>> 23) &&& 0x000FFFFF))
  let rg := amdgpu_ring_write rg (PACKET0 .UVD_SEMA_CMD)
  let rg := amdgpu_ring_write rg (RW.val (0x80 ||| (if emit_wait then 1 else 0)))
  (true, rg)

/-- A concrete empty ring (sw_init creates the UVD ring with 4096 words). -/
def ring0 : AmdgpuRing :=
  { ring_size := 4096, gpu_addr := 0, wptr := 0, ready := false, buf := [] }

/-- A concrete initial device state for witnesses and counterexamples. -/
def dev0 : Dev :=
  { regs := fun _ => 0, trace := [], ring := ring0, uvd_gpu_addr := 0, fw_size := 0 }

theorem land_land_self (x c : Nat) : x &&& c &&& c = x &&& c := by
  apply Nat.eq_of_testBit_eq
  intro i
  simp [Nat.testBit_and, Bool.and_assoc]

theorem lor_land_of_disjoint (x a c : Nat) (h : a &&& c = 0) :
    ((x &&& c) ||| a) &&& c = x &&& c := by
  apply Nat.eq_of_testBit_eq
  intro i
  have hi : a.testBit i = true → c.testBit i = false := by
    have h2 := congrArg (fun n => n.testBit i) h
    simpa [Nat.testBit_and] using h2
  simp only [Nat.testBit_and, Nat.testBit_or]
  cases hc : c.testBit i
  · simp
  · cases hA : a.testBit i
    · simp
    · rw [hi hA] at hc
      simp at hc

theorem land_two_pow_sub_one (x n : Nat) : x &&& (2 ^ n - 1) = x % 2 ^ n := by
  apply Nat.eq_of_testBit_eq
  intro i
  simp [Nat.testBit_and, Nat.testBit_mod_two_pow, Nat.testBit_two_pow_sub_one,
    Bool.and_comm]

theorem testBit_land_of_right_false (x c i : Nat) (h : c.testBit i = false) :
    (x &&& c).testBit i = false := by
  simp [Nat.testBit_and, h]

theorem wreg_ring (d : Dev) (r : Reg) (v : Nat) : (wreg d r v).ring = d.ring := rfl

theorem wregp_ring (d : Dev) (r : Reg) (v m : Nat) : (wregp d r v m).ring = d.ring := rfl

theorem mdelay_ring (d : Dev) (ms : Nat) : (mdelay d ms).ring = d.ring := rfl

theorem mc_resume_ring (d : Dev) : (uvd_v6_0_mc_resume d).ring = d.ring := rfl

theorem startPre_ring (d : Dev) : (startPre d).ring = d.ring := rfl

theorem vcpuResetPulse_ring (d : Dev) : (vcpuResetPulse d).ring = d.ring := rfl

theorem startPost_ring_ready (d : Dev) : (startPost d).ring.ready = d.ring.ready := rfl

theorem outerPoll_ring (st : Nat → Nat → Nat) :
    ∀ fuel i d, (outerPoll st i fuel d).dev.ring = d.ring := by
  intro fuel
  induction fuel with
  | zero => intro i d; rfl
  | succ n ih =>
    intro i d
    simp only [outerPoll]
    split
    · rfl
    · rw [ih]
      rfl

theorem outerPoll_regs (st : Nat → Nat → Nat) :
    ∀ fuel i d r, r ≠ Reg.UVD_SOFT_RESET →
      (outerPoll st i fuel d).dev.regs r = d.regs r := by
  intro fuel
  induction fuel with
  | zero => intro i d r _; rfl
  | succ n ih =>
    intro i d r hr
    simp only [outerPoll]
    split
    · rfl
    · rw [ih _ _ _ hr]
      simp [vcpuResetPulse, wregp, wreg, mdelay, hr]

theorem outerPoll_stats_indep (st : Nat → Nat → Nat) :
    ∀ fuel i d d2,
      (outerPoll st i fuel d).r = (outerPoll st i fuel d2).r ∧
      (outerPoll st i fuel d).resets = (outerPoll st i fuel d2).resets ∧
      (outerPoll st i fuel d).polls = (outerPoll st i fuel d2).polls := by
  intro fuel
  induction fuel with
  | zero => intro i d d2; exact ⟨rfl, rfl, rfl⟩
  | succ n ih =>
    intro i d d2
    simp only [outerPoll]
    split
    · exact ⟨rfl, rfl, rfl⟩
    · obtain ⟨h1, h2, h3⟩ := ih (i + 1) (vcpuResetPulse { d with trace := d.trace ++ (innerPoll st i 0 0 100).2.2 }) (vcpuResetPulse { d2 with trace := d2.trace ++ (innerPoll st i 0 0 100).2.2 })
      exact ⟨h1, by rw [h2], by rw [h3]⟩

theorem innerPoll_fail (st : Nat → Nat → Nat) (i : Nat) :
    ∀ fuel j status, (∀ k, k < fuel → st i (j + k) &&& 2 = 0) → status &&& 2 = 0 →
      (innerPoll st i j status fuel).1 &&& 2 = 0 ∧
      (innerPoll st i j status fuel).2.1 = fuel := by
  intro fuel
  induction fuel with
  | zero => intro j status _ hs; exact ⟨hs, rfl⟩
  | succ n ih =>
    intro j status hall hs
    have h0 : st i j &&& 2 = 0 := by simpa using hall 0 (Nat.succ_pos n)
    simp only [innerPoll]
    rw [if_neg (by simp [h0])]
    have hrec := ih (j + 1) (st i j) (fun k hk => by
      have h2 := hall (k + 1) (Nat.succ_lt_succ hk)
      rwa [show j + (k + 1) = j + 1 + k by omega] at h2) h0
    exact ⟨hrec.1, by simp [hrec.2]⟩

theorem innerPoll_succ (st : Nat → Nat → Nat) (i : Nat) :
    ∀ fuel j status, (∃ k, k < fuel ∧ st i (j + k) &&& 2 ≠ 0) →
      (innerPoll st i j status fuel).1 &&& 2 ≠ 0 := by
  intro fuel
  induction fuel with
  | zero =>
    intro j status hex
    obtain ⟨k, hk, _⟩ := hex
    exact absurd hk (Nat.not_lt_zero k)
  | succ n ih =>
    intro j status hex
    obtain ⟨k, hk, hset⟩ := hex
    by_cases h0 : st i j &&& 2 = 0
    · simp only [innerPoll]
      rw [if_neg (by simp [h0])]
      cases k with
      | zero => exact absurd h0 (by simpa using hset)
      | succ m =>
        apply ih (j + 1) (st i j)
        exact ⟨m, by omega, by rwa [show j + (m + 1) = j + 1 + m by omega] at hset⟩
    · simp only [innerPoll]
      rw [if_pos h0]
      exact h0

theorem outerPoll_fail (st : Nat → Nat → Nat) (hall : ∀ a j, st a j &&& 2 = 0) :
    ∀ fuel i d, (outerPoll st i fuel d).r = -1 ∧
      (outerPoll st i fuel d).resets = fuel ∧
      (outerPoll st i fuel d).polls = List.replicate fuel 100 := by
  intro fuel
  induction fuel with
  | zero => intro i d; exact ⟨rfl, rfl, rfl⟩
  | succ n ih =>
    intro i d
    have hin := innerPoll_fail st i 100 0 0 (fun k _ => by simpa using hall i k) rfl
    simp only [outerPoll]
    rw [if_neg (by simp [hin.1])]
    obtain ⟨h1, h2, h3⟩ :=
      ih (i + 1) (vcpuResetPulse { d with trace := d.trace ++ (innerPoll st i 0 0 100).2.2 })
    exact ⟨h1, by simp [h2], by simp [h3, hin.2, List.replicate_succ]⟩

theorem outerPoll_succ (st : Nat → Nat → Nat) :
    ∀ m fuel i d, m < fuel →
      (∀ a, a < m → ∀ j, j < 100 → st (i + a) j &&& 2 = 0) →
      (∃ j, j < 100 ∧ st (i + m) j &&& 2 ≠ 0) →
      (outerPoll st i fuel d).r = 0 ∧ (outerPoll st i fuel d).resets = m ∧
        (outerPoll st i fuel d).polls.length = m + 1 := by
  intro m
  induction m with
  | zero =>
    intro fuel i d hf _ hex
    obtain ⟨j, hj, hset⟩ := hex
    cases fuel with
    | zero => omega
    | succ n =>
      have hin : (innerPoll st i 0 0 100).1 &&& 2 ≠ 0 :=
        innerPoll_succ st i 100 0 0 ⟨j, hj, by simpa using hset⟩
      simp only [outerPoll]
      rw [if_pos hin]
      exact ⟨rfl, rfl, rfl⟩
  | succ m ih =>
    intro fuel i d hf hprev hex
    cases fuel with
    | zero => omega
    | succ n =>
      have hfail : ∀ k, k < 100 → st i (0 + k) &&& 2 = 0 := fun k hk => by
        have h2 := hprev 0 (Nat.succ_pos m) k hk
        simpa using h2
      have hin := innerPoll_fail st i 100 0 0 hfail rfl
      simp only [outerPoll]
      rw [if_neg (by simp [hin.1])]
      have hrec := ih n (i + 1)
        (vcpuResetPulse { d with trace := d.trace ++ (innerPoll st i 0 0 100).2.2 }) (by omega)
        (fun a ha j hj => by
          have h2 := hprev (a + 1) (by omega) j hj
          rwa [show i + (a + 1) = i + 1 + a by omega] at h2)
        (by
          obtain ⟨j, hj, hs⟩ := hex
          exact ⟨j, hj, by rwa [show i + (m + 1) = i + 1 + m by omega] at hs⟩)
      exact ⟨hrec.1, by simp [hrec.2.1], by simp [hrec.2.2]⟩

theorem start_fst_of_poll_fail (st : Nat → Nat → Nat) (d : Dev)
    (h : ∀ d2, (outerPoll st 0 10 d2).r = -1) : (uvd_v6_0_start st d).1 = -1 := by
  simp only [uvd_v6_0_start]
  rw [h]
  norm_num

theorem start_fst_of_poll_ok (st : Nat → Nat → Nat) (d : Dev)
    (h : ∀ d2, (outerPoll st 0 10 d2).r = 0) : (uvd_v6_0_start st d).1 = 0 := by
  simp only [uvd_v6_0_start]
  rw [h]
  norm_num

theorem start_ring_ready (st : Nat → Nat → Nat) (d : Dev) :
    (uvd_v6_0_start st d).2.ring.ready = d.ring.ready := by
  simp only [uvd_v6_0_start]
  split
  · have h := outerPoll_ring st 10 0 (startPre d)
    simp [h, startPre_ring]
  · have h := outerPoll_ring st 10 0 (startPre d)
    simp [startPost_ring_ready, h, startPre_ring]

theorem startPre_regs_srbm (d : Dev) :
    (startPre d).regs .SRBM_SOFT_RESET =
      d.regs .SRBM_SOFT_RESET &&& compl32 SRBM_SOFT_RESET__SOFT_RESET_UVD_MASK := by
  simp [startPre, uvd_v6_0_mc_resume, wreg, wregp, mdelay]

theorem startPost_regs_srbm (d : Dev) :
    (startPost d).regs .SRBM_SOFT_RESET = d.regs .SRBM_SOFT_RESET := by
  simp [startPost, wreg, wregp]

theorem start_srbm_clear (st : Nat → Nat → Nat) (d : Dev) :
    ((uvd_v6_0_start st d).2.regs .SRBM_SOFT_RESET).testBit 18 = false := by
  have hp := outerPoll_regs st 10 0 (startPre d) .SRBM_SOFT_RESET (by decide)
  simp only [uvd_v6_0_start]
  split
  · simp only []
    rw [hp, startPre_regs_srbm]
    exact testBit_land_of_right_false _ _ _ (by decide)
  · simp only []
    rw [startPost_regs_srbm, hp, startPre_regs_srbm]
    exact testBit_land_of_right_false _ _ _ (by decide)

theorem stall_bit_cancel (x : Nat) :
    ((x &&& compl32 256) ||| 256) &&& compl32 256 = x &&& compl32 256 :=
  lor_land_of_disjoint x _ _ (by decide)

/-- Claim C3 counterexample: the claim quantifies over every firmware blob
size, but mc_resume assigns the page-aligned size to a 32-bit local: at
fw_size = 2^32 - 4 the aligned value 2^32 wraps to 0, the SIZE0 register is
written 0, and region 1 starts exactly at region 0's offset — the region
starts are not strictly increasing. -/
theorem claim_C3_counterexample :
    mc_size0 (2 ^ 32 - 4) = 0 ∧
    (uvd_v6_0_mc_resume { dev0 with fw_size := 2 ^ 32 - 4 }).regs
      .UVD_VCPU_CACHE_SIZE0 = 0 ∧
    mc_offset1 (2 ^ 32 - 4) = mc_offset0 ∧
    ¬ mc_offset0 < mc_offset1 (2 ^ 32 - 4) := by
  refine ⟨by decide, ?_, by decide, by decide⟩
  simp [uvd_v6_0_mc_resume, wreg]
  decide

/-- Claim C3 (amended): for every firmware blob size whose page-aligned
cache size fits the 32-bit size register (all real firmware blobs; sizes of
2^32 - 4100 bytes and up overflow the uint32_t size local), uvd_v6_0_mc_resume
computes three contiguous regions: region 0 at the fixed firmware base offset
with size the firmware size plus 4 rounded up to the page granularity
(firmware size 100000 gives 102400), region 1 at region 0's offset plus
region 0's size with the fixed stack size, region 2 at region 1's offset plus
region 1's size with the fixed heap size; the offsets are strictly increasing
and page-aligned, and they are what mc_resume writes into the offset/size
registers (offsets in 8-byte units). -/
theorem claim_C3_amended (d : Dev)
    (hfw : AMDGPU_GPU_PAGE_ALIGN (d.fw_size + 4) < 2 ^ 32) :
    (uvd_v6_0_mc_resume d).regs .UVD_VCPU_CACHE_OFFSET0 = mc_offset0 >>> 3 ∧
    (uvd_v6_0_mc_resume d).regs .UVD_VCPU_CACHE_SIZE0 = mc_size0 d.fw_size ∧
    (uvd_v6_0_mc_resume d).regs .UVD_VCPU_CACHE_OFFSET1 = mc_offset1 d.fw_size >>> 3 ∧
    (uvd_v6_0_mc_resume d).regs .UVD_VCPU_CACHE_SIZE1 = AMDGPU_UVD_STACK_SIZE ∧
    (uvd_v6_0_mc_resume d).regs .UVD_VCPU_CACHE_OFFSET2 = mc_offset2 d.fw_size >>> 3 ∧
    (uvd_v6_0_mc_resume d).regs .UVD_VCPU_CACHE_SIZE2 = AMDGPU_UVD_HEAP_SIZE ∧
    mc_offset0 = AMDGPU_UVD_FIRMWARE_OFFSET ∧
    mc_size0 d.fw_size = AMDGPU_GPU_PAGE_ALIGN (d.fw_size + 4) ∧
    mc_offset1 d.fw_size = mc_offset0 + mc_size0 d.fw_size ∧
    mc_offset2 d.fw_size = mc_offset1 d.fw_size + AMDGPU_UVD_STACK_SIZE ∧
    mc_size0 100000 = 102400 ∧
    mc_offset0 < mc_offset1 d.fw_size ∧
    mc_offset1 d.fw_size < mc_offset2 d.fw_size ∧
    mc_offset0 % AMDGPU_GPU_PAGE_SIZE = 0 ∧
    mc_offset1 d.fw_size % AMDGPU_GPU_PAGE_SIZE = 0 ∧
    mc_offset2 d.fw_size % AMDGPU_GPU_PAGE_SIZE = 0 := by
  have hsz : mc_size0 d.fw_size = AMDGPU_GPU_PAGE_ALIGN (d.fw_size + 4) :=
    Nat.mod_eq_of_lt hfw
  have hq : mc_size0 d.fw_size = ((d.fw_size + 4 + 4095) / 4096) * 4096 := by
    rw [hsz]
    simp [AMDGPU_GPU_PAGE_ALIGN, AMDGPU_GPU_PAGE_SIZE]
  have hpos : 0 < mc_size0 d.fw_size := by
    rw [hq]
    exact Nat.mul_pos ((Nat.one_le_div_iff (by norm_num)).mpr (by omega)) (by norm_num)
  have ho1 : mc_offset1 d.fw_size = 4096 + ((d.fw_size + 4 + 4095) / 4096) * 4096 := by
    rw [mc_offset1, hq]
    rfl
  have ha1 : mc_offset1 d.fw_size % AMDGPU_GPU_PAGE_SIZE = 0 := by
    rw [ho1]
    simp [AMDGPU_GPU_PAGE_SIZE, Nat.add_mul_mod_self_right]
  have ha2 : mc_offset2 d.fw_size % AMDGPU_GPU_PAGE_SIZE = 0 := by
    have h2 : mc_offset2 d.fw_size =
        4096 + (d.fw_size + 4 + 4095) / 4096 * 4096 + 50 * 4096 := by
      rw [mc_offset2, ho1]
      rfl
    rw [h2]
    show (4096 + (d.fw_size + 4 + 4095) / 4096 * 4096 + 50 * 4096) % 4096 = 0
    rw [Nat.add_mul_mod_self_right, Nat.add_mul_mod_self_right]
  refine ⟨by simp [uvd_v6_0_mc_resume, wreg], by simp [uvd_v6_0_mc_resume, wreg],
    by simp [uvd_v6_0_mc_resume, wreg], by simp [uvd_v6_0_mc_resume, wreg],
    by simp [uvd_v6_0_mc_resume, wreg], by simp [uvd_v6_0_mc_resume, wreg],
    rfl, hsz, rfl, rfl,
    by norm_num [mc_size0, AMDGPU_GPU_PAGE_ALIGN, AMDGPU_GPU_PAGE_SIZE],
    Nat.lt_add_of_pos_right hpos,
    Nat.lt_add_of_pos_right (by norm_num [AMDGPU_UVD_STACK_SIZE]),
    by norm_num [mc_offset0, AMDGPU_UVD_FIRMWARE_OFFSET, AMDGPU_GPU_PAGE_SIZE],
    ha1, ha2⟩

theorem claim_C3_witness :
    AMDGPU_GPU_PAGE_ALIGN (100000 + 4) < 2 ^ 32 ∧
    (uvd_v6_0_mc_resume { dev0 with fw_size := 100000 }).regs
      .UVD_VCPU_CACHE_SIZE0 = mc_size0 100000 ∧
    mc_size0 100000 = 102400 ∧
    mc_offset0 < mc_offset1 100000 ∧
    mc_offset1 100000 < mc_offset2 100000 := by
  have hfw : AMDGPU_GPU_PAGE_ALIGN (100000 + 4) < 2 ^ 32 := by
    norm_num [AMDGPU_GPU_PAGE_ALIGN, AMDGPU_GPU_PAGE_SIZE]
  obtain ⟨_h1, h2, _h3, _h4, _h5, _h6, _h7, _h8, _h9, _h10, h11, h12, h13, _⟩ :=
    claim_C3_amended { dev0 with fw_size := 100000 } hfw
  exact ⟨hfw, h2, h11, h12, h13⟩

/-- Claim C5: stop is idempotent on the device registers (running it twice
leaves exactly the final register state of running it once), and one stop
performs, in order: force ring control to the idle value 0x11010101, stall
the bus bridge (1 ms), assert VCPU reset (5 ms), disable the VCPU clock, and
unstall the bus bridge. -/
theorem claim_C5 (d : Dev) :
    (uvd_v6_0_stop (uvd_v6_0_stop d)).regs = (uvd_v6_0_stop d).regs ∧
    (uvd_v6_0_stop d).trace = d.trace ++
      [Ev.wr .UVD_RBC_RB_CNTL 0x11010101,
       Ev.wr .UVD_LMI_CTRL2 ((d.regs .UVD_LMI_CTRL2 &&& compl32 (1 <<< 8)) ||| (1 <<< 8)),
       Ev.delay 1,
       Ev.wr .UVD_SOFT_RESET UVD_SOFT_RESET__VCPU_SOFT_RESET_MASK,
       Ev.delay 5,
       Ev.wr .UVD_VCPU_CNTL 0,
       Ev.wr .UVD_LMI_CTRL2
         (((d.regs .UVD_LMI_CTRL2 &&& compl32 (1 <<< 8)) ||| (1 <<< 8)) &&&
           compl32 (1 <<< 8))] := by
  constructor
  · funext x
    cases x <;> simp [uvd_v6_0_stop, wreg, wregp, mdelay, stall_bit_cancel, land_land_self]
  · simp [uvd_v6_0_stop, wreg, wregp, mdelay]

/-- Claim C6: soft_reset is exactly the composition of stop, a pulse of the
system-level (SRBM) soft-reset bit of the engine (5 ms), and start, returning
start's result; the pulsed bit is deasserted again during the subsequent
start, so it is clear in the final register state. -/
theorem claim_C6 (st : Nat → Nat → Nat) (d : Dev) :
    uvd_v6_0_soft_reset st d = stopThenPulseThenStart st d ∧
    ((uvd_v6_0_soft_reset st d).2.regs .SRBM_SOFT_RESET).testBit 18 = false := by
  refine ⟨rfl, ?_⟩
  have he : uvd_v6_0_soft_reset st d =
      uvd_v6_0_start st (pulseEngineSystemReset (uvd_v6_0_stop d)) := rfl
  rw [he]
  exact start_srbm_clear st _

/-- Claim C9 counterexample: set_interrupt_state does leave the device state
unchanged, but it returns 0, the silent-success code, not an explicit
"not yet implemented" error as the claim asserts. -/
theorem claim_C9_counterexample :
    uvd_v6_0_set_interrupt_state dev0 3 1 2 = (0, dev0) := rfl

/-- Claim C9 (amended): for every device and arguments, set_interrupt_state
performs no register writes and leaves the device state unchanged, and it
silently returns success (0); the unimplemented status is only a source
comment, not a reported capability. -/
theorem claim_C9_amended (d : Dev) (source type state : Nat) :
    uvd_v6_0_set_interrupt_state d source type state = (0, d) := rfl

/-- Claim C10: on a non-APU device, when the memory-release step fails,
suspend returns that error immediately with the device state untouched: no
stop() write sequence is performed (the trace is unchanged) and the ring's
ready flag is left as it was. -/
theorem claim_C10 (memRes : Int) (d : Dev) (h : memRes ≠ 0) :
    uvd_v6_0_suspend false memRes d = (memRes, d) := by
  simp [uvd_v6_0_suspend, h]

theorem claim_C10_witness : uvd_v6_0_suspend false (-12) dev0 = (-12, dev0) :=
  claim_C10 (-12) dev0 (by norm_num)

theorem wfiLoop_le (read : Nat → Nat) : ∀ fuel i, (wfiLoop read i fuel).2 ≤ fuel := by
  intro fuel
  induction fuel with
  | zero => intro i; simp [wfiLoop]
  | succ n ih =>
    intro i
    simp only [wfiLoop]
    split
    · simp
    · simpa using Nat.succ_le_succ (ih (i + 1))

theorem wfiLoop_timeout (read : Nat → Nat) :
    ∀ fuel i, (∀ k, k < fuel → read (i + k) &&& SRBM_STATUS__UVD_BUSY_MASK ≠ 0) →
      wfiLoop read i fuel = (-ETIMEDOUT, fuel) := by
  intro fuel
  induction fuel with
  | zero => intro i _; rfl
  | succ n ih =>
    intro i hall
    have h0 : read i &&& SRBM_STATUS__UVD_BUSY_MASK ≠ 0 := by
      simpa using hall 0 (Nat.succ_pos n)
    simp only [wfiLoop]
    rw [if_neg h0]
    rw [ih (i + 1) (fun k hk => by
      have h2 := hall (k + 1) (Nat.succ_lt_succ hk)
      rwa [show i + (k + 1) = i + 1 + k by omega] at h2)]

theorem wfiLoop_first_clear (read : Nat → Nat) :
    ∀ k fuel i, k < fuel →
      (∀ a, a < k → read (i + a) &&& SRBM_STATUS__UVD_BUSY_MASK ≠ 0) →
      read (i + k) &&& SRBM_STATUS__UVD_BUSY_MASK = 0 →
      wfiLoop read i fuel = (0, k + 1) := by
  intro k
  induction k with
  | zero =>
    intro fuel i hf _ hclear
    cases fuel with
    | zero => omega
    | succ n =>
      simp only [wfiLoop]
      rw [if_pos (by simpa using hclear)]
  | succ m ih =>
    intro fuel i hf hbusy hclear
    cases fuel with
    | zero => omega
    | succ n =>
      have h0 : read i &&& SRBM_STATUS__UVD_BUSY_MASK ≠ 0 := by
        simpa using hbusy 0 (Nat.succ_pos m)
      simp only [wfiLoop]
      rw [if_neg h0]
      rw [ih n (i + 1) (by omega)
        (fun a ha => by
          have h2 := hbusy (a + 1) (by omega)
          rwa [show i + (a + 1) = i + 1 + a by omega] at h2)
        (by rwa [show i + (m + 1) = i + 1 + m by omega] at hclear)]

/-- Claim C1: with a status oracle whose booted bit (bit 1) is never set, the
boot poll of start() performs exactly 10 outer attempts of exactly 100 inner
polls each, pulsing the VCPU through reset between attempts (after every
failed attempt), and start() returns the failure code -1 instead of looping;
and when the booted bit first appears during outer attempt k (1 ≤ k ≤ 10),
start() performs exactly k - 1 reset-and-retry pulses, enters exactly k
attempts, and returns success (0). -/
theorem claim_C1 (st : Nat → Nat → Nat) (d : Dev) :
    ((∀ i j, st i j &&& 2 = 0) →
      (uvd_v6_0_start st d).1 = -1 ∧
      ∀ d2, (outerPoll st 0 10 d2).r = -1 ∧ (outerPoll st 0 10 d2).resets = 10 ∧
        (outerPoll st 0 10 d2).polls = List.replicate 10 100) ∧
    (∀ k, 1 ≤ k → k ≤ 10 →
      (∀ i, i < k - 1 → ∀ j, j < 100 → st i j &&& 2 = 0) →
      (∃ j, j < 100 ∧ st (k - 1) j &&& 2 ≠ 0) →
      (uvd_v6_0_start st d).1 = 0 ∧
      ∀ d2, (outerPoll st 0 10 d2).r = 0 ∧ (outerPoll st 0 10 d2).resets = k - 1 ∧
        (outerPoll st 0 10 d2).polls.length = k) := by
  constructor
  · intro hall
    have hf := outerPoll_fail st hall 10
    exact ⟨start_fst_of_poll_fail st d (fun d2 => (hf 0 d2).1), fun d2 => hf 0 d2⟩
  · intro k hk1 hk10 hprev hex
    have hs : ∀ d2, (outerPoll st 0 10 d2).r = 0 ∧
        (outerPoll st 0 10 d2).resets = k - 1 ∧
        (outerPoll st 0 10 d2).polls.length = (k - 1) + 1 := fun d2 =>
      outerPoll_succ st (k - 1) 10 0 d2 (by omega)
        (fun a ha j hj => by simpa using hprev a ha j hj)
        (by
          obtain ⟨j, hj, hsj⟩ := hex
          exact ⟨j, hj, by simpa using hsj⟩)
    refine ⟨start_fst_of_poll_ok st d (fun d2 => (hs d2).1),
      fun d2 => ⟨(hs d2).1, (hs d2).2.1, ?_⟩⟩
    have hl := (hs d2).2.2
    omega

theorem claim_C1_witness :
    (uvd_v6_0_start (fun _ _ => 0) dev0).1 = -1 ∧
    (outerPoll (fun _ _ => 0) 0 10 dev0).resets = 10 ∧
    (outerPoll (fun _ _ => 0) 0 10 dev0).polls = List.replicate 10 100 ∧
    (uvd_v6_0_start (fun i _ => if 2 ≤ i then 2 else 0) dev0).1 = 0 ∧
    (outerPoll (fun i _ => if 2 ≤ i then 2 else 0) 0 10 dev0).resets = 2 := by
  have h1 := (claim_C1 (fun _ _ => 0) dev0).1 (fun i j => rfl)
  have h2 := (claim_C1 (fun i _ => if 2 ≤ i then 2 else 0) dev0).2 3 (by norm_num)
    (by norm_num)
    (fun i hi j hj => by
      rw [if_neg (by omega)]
      rfl)
    ⟨0, by norm_num, by norm_num⟩
  refine ⟨h1.1, (h1.2 dev0).2.1, (h1.2 dev0).2.2, h2.1, ?_⟩
  have h3 := (h2.2 dev0).2.1
  simpa using h3

/-- Claim C2 counterexample: when start() and the generic ring test succeed
but the ring-lock acquisition for the semaphore-timeout programming fails
(result -5), hw_init returns the nonzero error yet leaves the ring's ready
flag TRUE, contradicting the claim that every hw_init failure leaves the ring
marked not-ready. -/
theorem claim_C2_counterexample :
    (uvd_v6_0_hw_init (fun _ _ => 2) 0 (-5) dev0).1 ≠ 0 ∧
    (uvd_v6_0_hw_init (fun _ _ => 2) 0 (-5) dev0).2.ring.ready = true := by
  have h : (uvd_v6_0_hw_init (fun _ _ => 2) 0 (-5) dev0).1 = -5 := rfl
  constructor
  · rw [h]
    norm_num
  · rfl

/-- Claim C2 (amended): entering hw_init with the ring not ready, a failure
of start() or of the generic ring test surfaces the error with the ring's
ready flag false; a failure of the ring-lock acquisition for the
semaphore-timeout programming surfaces the error but leaves the ready flag
true (it is set just before and not cleared on that path). -/
theorem claim_C2_amended (st : Nat → Nat → Nat) (testRes lockRes : Int) (d : Dev)
    (hready : d.ring.ready = false) :
    ((uvd_v6_0_start st d).1 ≠ 0 →
      (uvd_v6_0_hw_init st testRes lockRes d).1 = (uvd_v6_0_start st d).1 ∧
      (uvd_v6_0_hw_init st testRes lockRes d).2.ring.ready = false) ∧
    ((uvd_v6_0_start st d).1 = 0 → testRes ≠ 0 →
      (uvd_v6_0_hw_init st testRes lockRes d).1 = testRes ∧
      (uvd_v6_0_hw_init st testRes lockRes d).2.ring.ready = false) ∧
    ((uvd_v6_0_start st d).1 = 0 → testRes = 0 → lockRes ≠ 0 →
      (uvd_v6_0_hw_init st testRes lockRes d).1 = lockRes ∧
      (uvd_v6_0_hw_init st testRes lockRes d).2.ring.ready = true) := by
  refine ⟨?_, ?_, ?_⟩
  · intro hstart
    simp only [uvd_v6_0_hw_init]
    rw [if_pos hstart]
    exact ⟨rfl, by rw [start_ring_ready st d, hready]⟩
  · intro hstart htest
    simp only [uvd_v6_0_hw_init]
    rw [if_neg (by simp [hstart]), if_pos htest]
    exact ⟨rfl, by simp [setReady]⟩
  · intro hstart htest hlock
    simp only [uvd_v6_0_hw_init]
    rw [if_neg (by simp [hstart]), if_neg (by simp [htest]), if_pos hlock]
    exact ⟨rfl, by simp [setReady]⟩

theorem claim_C2_witness :
    (uvd_v6_0_hw_init (fun _ _ => 2) (-7) 0 dev0).1 = -7 ∧
    (uvd_v6_0_hw_init (fun _ _ => 2) (-7) 0 dev0).2.ring.ready = false := by
  exact (claim_C2_amended (fun _ _ => 2) (-7) 0 dev0 rfl).2.1 rfl (by norm_num)

/-- Claim C4 counterexample: emit_fence writes 14 ring words (seven
address-tag/value pairs), not twelve as the claim states. -/
theorem claim_C4_counterexample :
    (uvd_v6_0_ring_emit_fence ring0 4096 7).buf.length = 14 ∧
    ¬ (uvd_v6_0_ring_emit_fence ring0 4096 7).buf.length = 12 := by
  constructor
  · rfl
  · decide

/-- Claim C4 (amended): for every 64-bit address and 32-bit sequence number,
emit_fence writes exactly FOURTEEN ring words in this order: a
context-id-tagged pair carrying seq, the address split into a low-tagged pair
and a high-tagged pair, a command pair with value 0, a second identical
address block with zero payload, and a final command pair with value 2. -/
theorem claim_C4_amended (rg : AmdgpuRing) (addr seq : Nat)
    (_haddr : addr < 2 ^ 64) (hseq : seq < 2 ^ 32) :
    (uvd_v6_0_ring_emit_fence rg addr seq).buf = rg.buf ++
      [RW.tag .UVD_CONTEXT_ID, RW.val seq,
       RW.tag .UVD_GPCOM_VCPU_DATA0, RW.val (addr % 2 ^ 32),
       RW.tag .UVD_GPCOM_VCPU_DATA1, RW.val ((addr >>> 32) &&& 0xFF),
       RW.tag .UVD_GPCOM_VCPU_CMD, RW.val 0,
       RW.tag .UVD_GPCOM_VCPU_DATA0, RW.val 0,
       RW.tag .UVD_GPCOM_VCPU_DATA1, RW.val 0,
       RW.tag .UVD_GPCOM_VCPU_CMD, RW.val 2] ∧
    (uvd_v6_0_ring_emit_fence rg addr seq).buf.length = rg.buf.length + 14 := by
  have hs : seq &&& 0xFFFFFFFF = seq := by
    rw [show (0xFFFFFFFF : Nat) = 2 ^ 32 - 1 by norm_num, land_two_pow_sub_one]
    exact Nat.mod_eq_of_lt hseq
  have hl : addr &&& 0xFFFFFFFF = addr % 2 ^ 32 := by
    rw [show (0xFFFFFFFF : Nat) = 2 ^ 32 - 1 by norm_num, land_two_pow_sub_one]
  constructor
  · simp [uvd_v6_0_ring_emit_fence, amdgpu_ring_write, PACKET0, hs, hl, upper_32_bits]
  · simp [uvd_v6_0_ring_emit_fence, amdgpu_ring_write]

theorem claim_C4_witness :
    (uvd_v6_0_ring_emit_fence ring0 (2 ^ 40 + 8) 12345).buf.length =
      ring0.buf.length + 14 :=
  (claim_C4_amended ring0 (2 ^ 40 + 8) 12345 (by norm_num) (by norm_num)).2

/-- Claim C7: for every 64-bit semaphore address and wait/signal flag,
emit_semaphore writes exactly six ring words: a low-tagged pair holding
address bits 3-22, a high-tagged pair holding address bits 23-42, and a
command pair whose value is 0x80 plus 1 when waiting and plus 0 when
signalling; it returns true. -/
theorem claim_C7 (rg : AmdgpuRing) (addr : Nat) (emit_wait : Bool)
    (_haddr : addr < 2 ^ 64) :
    (uvd_v6_0_ring_emit_semaphore rg addr emit_wait).1 = true ∧
    (uvd_v6_0_ring_emit_semaphore rg addr emit_wait).2.buf = rg.buf ++
      [RW.tag .UVD_SEMA_ADDR_LOW, RW.val ((addr >>> 3) % 2 ^ 20),
       RW.tag .UVD_SEMA_ADDR_HIGH, RW.val ((addr >>> 23) % 2 ^ 20),
       RW.tag .UVD_SEMA_CMD, RW.val (0x80 + if emit_wait then 1 else 0)] ∧
    (uvd_v6_0_ring_emit_semaphore rg addr emit_wait).2.buf.length =
      rg.buf.length + 6 := by
  have hm : ∀ x : Nat, x &&& 0x000FFFFF = x % 2 ^ 20 := fun x => by
    rw [show (0x000FFFFF : Nat) = 2 ^ 20 - 1 by norm_num, land_two_pow_sub_one]
  have hcmd : (0x80 ||| (if emit_wait then 1 else 0)) =
      0x80 + (if emit_wait then 1 else 0) := by
    cases emit_wait <;> decide
  refine ⟨rfl, ?_, ?_⟩
  · simp [uvd_v6_0_ring_emit_semaphore, amdgpu_ring_write, PACKET0, hm, hcmd]
  · simp [uvd_v6_0_ring_emit_semaphore, amdgpu_ring_write]

theorem claim_C7_witness :
    (uvd_v6_0_ring_emit_semaphore ring0 (2 ^ 40 + 40) true).2.buf.length =
      ring0.buf.length + 6 :=
  (claim_C7 ring0 (2 ^ 40 + 40) true (by norm_num)).2.2

/-- Claim C8: wait_for_idle polls the shared engine-busy bit at most
usec_timeout times, returns 0 as soon as a read shows the bit clear (after
exactly one poll past the busy prefix), returns the distinct error
-ETIMEDOUT with exactly usec_timeout polls when the bit stays set for the
whole bound, and is_idle is true exactly when the busy bit is clear. -/
theorem claim_C8 (read : Nat → Nat) (usec_timeout : Nat) :
    (uvd_v6_0_wait_for_idle read usec_timeout).2 ≤ usec_timeout ∧
    ((∀ i, i < usec_timeout → read i &&& SRBM_STATUS__UVD_BUSY_MASK ≠ 0) →
      uvd_v6_0_wait_for_idle read usec_timeout = (-ETIMEDOUT, usec_timeout)) ∧
    (∀ k, k < usec_timeout →
      (∀ a, a < k → read a &&& SRBM_STATUS__UVD_BUSY_MASK ≠ 0) →
      read k &&& SRBM_STATUS__UVD_BUSY_MASK = 0 →
      uvd_v6_0_wait_for_idle read usec_timeout = (0, k + 1)) ∧
    (∀ v, uvd_v6_0_is_idle v = true ↔ v &&& SRBM_STATUS__UVD_BUSY_MASK = 0) := by
  refine ⟨wfiLoop_le read usec_timeout 0, ?_, ?_, ?_⟩
  · intro h
    exact wfiLoop_timeout read usec_timeout 0 (fun k hk => by simpa using h k hk)
  · intro k hk hbusy hclear
    exact wfiLoop_first_clear read k usec_timeout 0 hk
      (fun a ha => by simpa using hbusy a ha) (by simpa using hclear)
  · intro v
    simp [uvd_v6_0_is_idle]

theorem claim_C8_witness :
    uvd_v6_0_wait_for_idle
      (fun i => if i < 2 then SRBM_STATUS__UVD_BUSY_MASK else 0) 5 = (0, 3) ∧
    uvd_v6_0_wait_for_idle (fun _ => SRBM_STATUS__UVD_BUSY_MASK) 3 =
      (-ETIMEDOUT, 3) := by
  constructor
  · exact (claim_C8 (fun i => if i < 2 then SRBM_STATUS__UVD_BUSY_MASK else 0) 5).2.2.1
      2 (by norm_num)
      (fun a ha => by
        rw [if_pos ha]
        decide)
      (by
        rw [if_neg (by omega)]
        decide)
  · exact (claim_C8 (fun _ => SRBM_STATUS__UVD_BUSY_MASK) 3).2.1 (fun i _ => by decide)
